import Mathlib

/-!
Verification of the hidraw access layer of libratbag
(`src/libratbag-hidraw.c`), as a shallow embedding.

Buffers are modelled as `List Nat` (bytes); a nullable C pointer is an
`Option (List Nat)`.  The kernel side of each syscall (ioctl, read, write,
poll) is an environment parameter, and the per-device state visible to the
sequential functions (fd validity, the `use_thread` flag, the read mutex as
seen by the calling thread, the interrupt pipe content, and a trace of the
device I/O performed) is threaded explicitly.
-/

namespace Hidraw

/-- `HID_MAX_BUFFER_SIZE` (4 kb), from the kernel headers. -/
def HID_MAX_BUFFER_SIZE : Nat := 4096

/-- `HIDRAW_MAX_READ` : 4096 is the max allowed by the HID spec. -/
def HIDRAW_MAX_READ : Nat := 4096

/-- `HID_INPUT_REPORT` from `linux/hid.h`. -/
def HID_INPUT_REPORT : Nat := 0

/-- `HID_OUTPUT_REPORT` from `linux/hid.h`. -/
def HID_OUTPUT_REPORT : Nat := 1

/-- `HID_FEATURE_REPORT` from `linux/hid.h`. -/
def HID_FEATURE_REPORT : Nat := 2

/-- `HID_REQ_GET_REPORT` from `linux/hid.h`. -/
def HID_REQ_GET_REPORT : Nat := 1

/-- `HID_REQ_SET_REPORT` from `linux/hid.h`. -/
def HID_REQ_SET_REPORT : Nat := 9

/-- errno `EINVAL`. -/
def EINVAL : Int := 22

/-- errno `ENOTSUP`. -/
def ENOTSUP : Int := 95

/-- errno `EINTR`. -/
def EINTR : Int := 4

/-- The incomplete-write errno (value 5), named with a suffix here. -/
def EIO_err : Int := 5

/-- errno `ETIMEDOUT`. -/
def ETIMEDOUT : Int := 110

/-- `POLLIN` revents bit. -/
def POLLIN : Nat := 1

/-- One device-I/O syscall performed on the hidraw descriptor or on the
interrupt pipe, recorded in the trace of the device state. -/
inductive IOEvent where
  | ioctlGetFeature (len : Nat)
  | ioctlSetFeature (len : Nat)
  | devWrite (len : Nat)
  | devRead
  | pipeRead
  deriving DecidableEq, Repr

/-- The `device->hidraw` state visible to the sequential functions:
`fd` and the interrupt pipe contents, the `use_thread` flag, the read
mutex `lock` as held (or not) by the calling thread, and a trace of the
device I/O performed so far. -/
structure Device where
  fd : Int
  useThread : Bool
  lockHeld : Bool
  pipe : List Nat
  trace : List IOEvent
  deriving DecidableEq, Repr

/-- `ratbag_hidraw_lock_events`: no-op returning 0 when no listener thread
is used; otherwise grabs `grab_lock`, writes one byte (a newline) to the
interrupt pipe, takes the read mutex `lock`, and releases `grab_lock`.
From the point of view of the calling thread the net effect on the device
state is: the read mutex is now held and one byte sits in the pipe. -/
def ratbag_hidraw_lock_events (dev : Device) : Int × Device :=
  if !dev.useThread then (0, dev)
  else (0, { dev with lockHeld := true, pipe := dev.pipe ++ [10] })

/-- `ratbag_hidraw_unlock_events`: no-op returning 0 when no listener
thread is used; otherwise releases the read mutex `lock`. -/
def ratbag_hidraw_unlock_events (dev : Device) : Int × Device :=
  if !dev.useThread then (0, dev)
  else (0, { dev with lockHeld := false })

/-- Kernel-side behaviour of the two feature-report ioctls used by
`ratbag_hidraw_raw_request`.  `getFeature len tmp` is
`ioctl(fd, HIDIOCGFEATURE(len), tmp)`: on success the kernel returns
`rc ≥ 0` and writes `rc` bytes into the buffer, modelled as the list of
bytes written; on failure it yields the (positive) errno.
`setFeature len buf` is `ioctl(fd, HIDIOCSFEATURE(len), buf)`. -/
structure ReqEnv where
  getFeature : Nat → List Nat → Except Nat (List Nat)
  setFeature : Nat → List Nat → Except Nat Nat

/-- The kernel contract for `HIDIOCGFEATURE(len)`: the kernel never writes
more than `len` bytes into the supplied buffer. -/
def ReqEnv.GetOK (env : ReqEnv) : Prop :=
  ∀ len tmp bytes, env.getFeature len tmp = Except.ok bytes → bytes.length ≤ len

/-- `ratbag_hidraw_raw_request(device, reportnum, buf, len, rtype, reqtype)`.
Returns the C return value together with the caller's buffer after the call
and the device state after the call. -/
def ratbag_hidraw_raw_request (env : ReqEnv) (dev : Device) (reportnum : Nat)
    (buf : Option (List Nat)) (len : Nat) (rtype : Nat) (reqtype : Nat) :
    Int × Option (List Nat) × Device :=
  if len < 1 ∨ HID_MAX_BUFFER_SIZE < len ∨ buf = none ∨ dev.fd < 0 then
    (-EINVAL, buf, dev)
  else
    match buf with
    | none => (-EINVAL, none, dev)
    | some b =>
      if rtype ≠ HID_FEATURE_REPORT then (-ENOTSUP, some b, dev)
      else
        -- we need to get the lock on the file to prevent concurrent accesses
        let dev1 := (ratbag_hidraw_lock_events dev).2
        if reqtype = HID_REQ_GET_REPORT then
          -- memset(tmp_buf, 0, len); tmp_buf[0] = reportnum
          let tmp := reportnum :: List.replicate (len - 1) 0
          let dev2 := { dev1 with trace := dev1.trace ++ [IOEvent.ioctlGetFeature len] }
          match env.getFeature len tmp with
          | Except.error e =>
            (-(e : Int), some b, (ratbag_hidraw_unlock_events dev2).2)
          | Except.ok bytes =>
            -- memcpy(buf, tmp_buf, rc) with rc = bytes.length
            ((bytes.length : Int), some (bytes ++ b.drop bytes.length),
              (ratbag_hidraw_unlock_events dev2).2)
        else if reqtype = HID_REQ_SET_REPORT then
          -- buf[0] = reportnum, in place
          let b1 := reportnum :: b.tail
          let dev2 := { dev1 with trace := dev1.trace ++ [IOEvent.ioctlSetFeature len] }
          match env.setFeature len b1 with
          | Except.error e =>
            (-(e : Int), some b1, (ratbag_hidraw_unlock_events dev2).2)
          | Except.ok rc =>
            ((rc : Int), some b1, (ratbag_hidraw_unlock_events dev2).2)
        else
          (-EINVAL, some b, (ratbag_hidraw_unlock_events dev1).2)

/-- Kernel-side behaviour of `write(fd, buf, len)` used by
`ratbag_hidraw_output_report`: either a (positive) errno or the number of
bytes written. -/
structure WriteEnv where
  devWrite : List Nat → Nat → Except Nat Nat

/-- `ratbag_hidraw_output_report(device, buf, len)`. -/
def ratbag_hidraw_output_report (env : WriteEnv) (dev : Device)
    (buf : Option (List Nat)) (len : Nat) : Int × Device :=
  if len < 1 ∨ HID_MAX_BUFFER_SIZE < len ∨ buf = none ∨ dev.fd < 0 then
    (-EINVAL, dev)
  else
    match buf with
    | none => (-EINVAL, dev)
    | some b =>
      let dev1 := { dev with trace := dev.trace ++ [IOEvent.devWrite len] }
      match env.devWrite b len with
      | Except.error e => (-(e : Int), dev1)
      | Except.ok rc => if rc ≠ len then (-EIO_err, dev1) else (0, dev1)

/-- Outcome of `poll(fds, 2, 1000)` on the device descriptor and the
interrupt-pipe read end: an error (`rc == -1` with an errno), a timeout
(`rc == 0`), or readiness (`rc > 0`) with the `revents` bitmasks of the
two descriptors. -/
inductive PollOutcome where
  | pollError (errno : Nat)
  | pollTimeout
  | pollReady (devRevents : Nat) (pipeRevents : Nat)

/-- Kernel-side behaviour of the syscalls in
`ratbag_hidraw_read_input_report`: the poll outcome and the result of
`read(fd, read_buf, HIDRAW_MAX_READ)` on the device descriptor (a
(positive) errno or the bytes read). -/
structure ReadEnv where
  poll : PollOutcome
  devRead : Except Nat (List Nat)

/-- `ratbag_hidraw_read_input_report(device, buf, len, propagate)`.
`hasRawEvent` models whether `device->driver->raw_event` is non-null.
Returns the C return value, the caller's buffer after the call, the device
state after the call, and the list of buffers the `raw_event` callback was
invoked with. -/
def ratbag_hidraw_read_input_report (env : ReadEnv) (dev : Device)
    (buf : Option (List Nat)) (len : Nat) (propagate : Bool)
    (hasRawEvent : Bool) :
    Int × Option (List Nat) × Device × List (List Nat) :=
  if len < 1 ∨ buf = none ∨ dev.fd < 0 ∨ HIDRAW_MAX_READ < len then
    (-EINVAL, buf, dev, [])
  else
    match buf with
    | none => (-EINVAL, none, dev, [])
    | some b =>
      match env.poll with
      | PollOutcome.pollError e => (-(e : Int), some b, dev, [])
      | PollOutcome.pollTimeout => (-ETIMEDOUT, some b, dev, [])
      | PollOutcome.pollReady _ pipeRevents =>
        if pipeRevents = POLLIN then
          -- clear the pipe: read(pipe_fds[0], read_buf, HIDRAW_MAX_READ)
          let dev1 := { dev with
            pipe := dev.pipe.drop HIDRAW_MAX_READ,
            trace := dev.trace ++ [IOEvent.pipeRead] }
          (-EINTR, some b, dev1, [])
        else
          let dev1 := { dev with trace := dev.trace ++ [IOEvent.devRead] }
          match env.devRead with
          | Except.error e => (-(e : Int), some b, dev1, [])
          | Except.ok bytes =>
            -- len_read = rc = bytes.length
            let calls := if propagate ∧ hasRawEvent then [bytes] else []
            -- memcpy(buf, read_buf, len_read < len ? len_read : len)
            let m := min bytes.length len
            ((bytes.length : Int), some (bytes.take m ++ b.drop m), dev1, calls)

/-!
## Interleaving model for the soft lock

`ratbag_hidraw_lock_events` / `ratbag_hidraw_unlock_events` and the
listener `hidraw_events_thread` are modelled as sequences of atomic
actions on the two pthread mutexes (`lock`, called L here, and
`grab_lock`, called G), the interrupt pipe, and the device descriptor.
A system is a family of thread programs interleaved by an arbitrary
scheduler; mutex semantics are the only synchronisation.
The model covers the situation where the listener thread is active
(`use_thread == 1` throughout), so the mutex branches of
`lock_events` / `unlock_events` / `soft_lock_events` are the ones taken.
-/

/-- One atomic action of a thread: operations on the read mutex `lock`
(L), on `grab_lock` (G), on the interrupt pipe, and entering/leaving a
device read or ioctl. -/
inductive Action where
  | lockL
  | unlockL
  | lockG
  | unlockG
  | pipeWrite
  | pipeDrain
  | readStart
  | readEnd
  deriving DecidableEq, Repr

/-- Run a boolean flag along the first `n` actions of a program. -/
def flagAfter (upd : Action → Bool → Bool) (b : Bool) : List Action → Nat → Bool
  | _, 0 => b
  | [], _ + 1 => b
  | a :: p, n + 1 => flagAfter upd (upd a b) p n

/-- Flag update tracking whether the thread holds the read mutex L. -/
def lockUpd : Action → Bool → Bool
  | Action.lockL, _ => true
  | Action.unlockL, _ => false
  | _, b => b

/-- Flag update tracking whether the thread is inside a device read. -/
def readUpd : Action → Bool → Bool
  | Action.readStart, _ => true
  | Action.readEnd, _ => false
  | _, b => b

/-- After executing the first `n` actions of `p`, does the thread hold the
read mutex L? -/
def holdsL (p : List Action) (n : Nat) : Bool := flagAfter lockUpd false p n

/-- After executing the first `n` actions of `p`, is the thread inside a
device read/ioctl? -/
def inRead (p : List Action) (n : Nat) : Bool := flagAfter readUpd false p n

/-- A program only performs device reads while holding the read mutex L. -/
def ReadsUnderLock (p : List Action) : Prop :=
  ∀ n, inRead p n = true → holdsL p n = true

/-- Global state of the interleaved system: owners of the two mutexes,
number of bytes pending in the interrupt pipe, and each thread's program
counter. -/
structure SysState where
  lockOwner : Option Nat
  grabOwner : Option Nat
  pipeLen : Nat
  pc : Nat → Nat

/-- Initial state: both mutexes free, pipe empty, all threads at 0. -/
def initState : SysState :=
  { lockOwner := none, grabOwner := none, pipeLen := 0, pc := fun _ => 0 }

/-- One interleaving step: some thread `t` executes its next action.
Mutex acquisition only fires when the mutex is free, release only by the
owner (pthread mutexes are not recursive and unlock-by-non-owner is
undefined behaviour, so such a thread simply blocks / cannot step). -/
inductive Step (progs : Nat → List Action) : SysState → SysState → Prop where
  | lockL (t : Nat) (s : SysState)
      (h : (progs t).get? (s.pc t) = some Action.lockL)
      (hfree : s.lockOwner = none) :
      Step progs s { s with lockOwner := some t,
                            pc := Function.update s.pc t (s.pc t + 1) }
  | unlockL (t : Nat) (s : SysState)
      (h : (progs t).get? (s.pc t) = some Action.unlockL)
      (hown : s.lockOwner = some t) :
      Step progs s { s with lockOwner := none,
                            pc := Function.update s.pc t (s.pc t + 1) }
  | lockG (t : Nat) (s : SysState)
      (h : (progs t).get? (s.pc t) = some Action.lockG)
      (hfree : s.grabOwner = none) :
      Step progs s { s with grabOwner := some t,
                            pc := Function.update s.pc t (s.pc t + 1) }
  | unlockG (t : Nat) (s : SysState)
      (h : (progs t).get? (s.pc t) = some Action.unlockG)
      (hown : s.grabOwner = some t) :
      Step progs s { s with grabOwner := none,
                            pc := Function.update s.pc t (s.pc t + 1) }
  | pipeWrite (t : Nat) (s : SysState)
      (h : (progs t).get? (s.pc t) = some Action.pipeWrite) :
      Step progs s { s with pipeLen := s.pipeLen + 1,
                            pc := Function.update s.pc t (s.pc t + 1) }
  | pipeDrain (t : Nat) (s : SysState)
      (h : (progs t).get? (s.pc t) = some Action.pipeDrain) :
      Step progs s { s with pipeLen := 0,
                            pc := Function.update s.pc t (s.pc t + 1) }
  | readStart (t : Nat) (s : SysState)
      (h : (progs t).get? (s.pc t) = some Action.readStart) :
      Step progs s { s with pc := Function.update s.pc t (s.pc t + 1) }
  | readEnd (t : Nat) (s : SysState)
      (h : (progs t).get? (s.pc t) = some Action.readEnd) :
      Step progs s { s with pc := Function.update s.pc t (s.pc t + 1) }

/-- States reachable by interleaving the thread programs from the initial
state. -/
inductive Reachable (progs : Nat → List Action) : SysState → Prop where
  | init : Reachable progs initState
  | step {s s' : SysState} : Reachable progs s → Step progs s s' →
      Reachable progs s'

/-- The synchronisation invariant: a thread's local view of holding the
read mutex L agrees with the global mutex owner. -/
def LockSync (progs : Nat → List Action) (s : SysState) : Prop :=
  ∀ t, holdsL (progs t) (s.pc t) = true ↔ s.lockOwner = some t

/-- The actions of `ratbag_hidraw_lock_events` when a listener is active:
take `grab_lock`, write one byte to the pipe, take `lock`, release
`grab_lock`. -/
def lockEventsActs : List Action :=
  [Action.lockG, Action.pipeWrite, Action.lockL, Action.unlockG]

/-- The actions of `ratbag_hidraw_unlock_events` when a listener is
active: release `lock`. -/
def unlockEventsActs : List Action := [Action.unlockL]

/-- One foreground session: `lock_events`, a device read/ioctl under the
soft lock, `unlock_events`.  (`ratbag_hidraw_raw_request` has exactly this
shape, with the ioctl as the read.) -/
def stealerSession : List Action :=
  lockEventsActs ++ [Action.readStart, Action.readEnd] ++ unlockEventsActs

/-- A foreground caller performing `m` sessions. -/
def stealerProg : Nat → List Action
  | 0 => []
  | m + 1 => stealerSession ++ stealerProg m

/-- Outcome of one `ratbag_hidraw_read_input_report` call inside the
listener loop: the device branch (a device read happens), the
interrupt-pipe branch (the pipe is drained, no device read), or no read at
all (poll timeout or error). -/
inductive ListenBranch where
  | devReadBranch
  | pipeBranch
  | noReadBranch

/-- One iteration of `hidraw_events_thread`'s loop:
`soft_lock_events` (take `lock`), `read_input_report` (whose I/O depends
on the poll outcome), `unlock_events` (release `lock`), then the
`grab_lock` take/release handshake. -/
def listenerIter : ListenBranch → List Action
  | ListenBranch.devReadBranch =>
      [Action.lockL, Action.readStart, Action.readEnd, Action.unlockL,
       Action.lockG, Action.unlockG]
  | ListenBranch.pipeBranch =>
      [Action.lockL, Action.pipeDrain, Action.unlockL,
       Action.lockG, Action.unlockG]
  | ListenBranch.noReadBranch =>
      [Action.lockL, Action.unlockL, Action.lockG, Action.unlockG]

/-- The listener thread running `k` loop iterations, the poll outcome of
iteration `i` given by `f i`. -/
def listenerProg (f : Nat → ListenBranch) : Nat → List Action
  | 0 => []
  | k + 1 => listenerIter (f k) ++ listenerProg f k

/-- The whole system: thread 0 is the listener (`k` iterations, poll
outcomes `f`), thread `t + 1` is a foreground caller performing
`sessions t` lock/read/unlock sessions. -/
def hidrawProgs (f : Nat → ListenBranch) (k : Nat) (sessions : Nat → Nat) :
    Nat → List Action
  | 0 => listenerProg f k
  | t + 1 => stealerProg (sessions t)

/-- A well-bracketed thread program: it only performs device reads while
holding the read mutex L, and it ends having released L and outside any
read. -/
def GoodBlock (p : List Action) : Prop :=
  ReadsUnderLock p ∧ holdsL p p.length = false ∧ inRead p p.length = false

/-! ## Theorems -/

/-! ### Flag semantics of thread programs -/

/-- Stepping a flag one action further, reading the action off the
program. -/
theorem flagAfter_get (upd : Action → Bool → Bool) :
    ∀ (p : List Action) (n : Nat) (b : Bool) (a : Action),
      p.get? n = some a →
      flagAfter upd b p (n + 1) = upd a (flagAfter upd b p n)
  | [], n, _, _, h => by simp at h
  | a0 :: p, 0, b, a, h => by
      simp only [List.get?_cons_zero, Option.some.injEq] at h
      subst h
      simp [flagAfter]
  | a0 :: p, n + 1, b, a, h => by
      simp only [List.get?_cons_succ] at h
      simpa [flagAfter] using flagAfter_get upd p n (upd a0 b) a h

/-- A flag does not change past the end of the program. -/
theorem flagAfter_stable (upd : Action → Bool → Bool) :
    ∀ (p : List Action) (b : Bool) (n : Nat), p.length ≤ n →
      flagAfter upd b p n = flagAfter upd b p p.length
  | [], b, n, _ => by cases n <;> rfl
  | a :: p, b, 0, h => by simp at h
  | a :: p, b, n + 1, h => by
      have : p.length ≤ n := by simpa using h
      simpa [flagAfter] using flagAfter_stable upd p (upd a b) n this

/-- Within the first block of a concatenation, a flag only sees the first
block. -/
theorem flagAfter_append_le (upd : Action → Bool → Bool) :
    ∀ (p q : List Action) (b : Bool) (n : Nat), n ≤ p.length →
      flagAfter upd b (p ++ q) n = flagAfter upd b p n
  | p, q, b, 0, _ => by simp [flagAfter]
  | [], q, b, n + 1, h => by simp at h
  | a :: p, q, b, n + 1, h => by
      have : n ≤ p.length := by simpa using h
      simpa [flagAfter] using flagAfter_append_le upd p q (upd a b) n this

/-- Past the first block of a concatenation, a flag continues from its
value at the end of the first block. -/
theorem flagAfter_append_add (upd : Action → Bool → Bool) :
    ∀ (p q : List Action) (b : Bool) (n : Nat),
      flagAfter upd b (p ++ q) (p.length + n) =
        flagAfter upd (flagAfter upd b p p.length) q n
  | [], q, b, n => by simp [flagAfter]
  | a :: p, q, b, n => by
      have harith : (a :: p).length + n = (p.length + n) + 1 := by
        simp [Nat.succ_add]
      rw [harith]
      simpa [flagAfter] using flagAfter_append_add upd p q (upd a b) n

/-- Checking `ReadsUnderLock` up to the program length is enough. -/
theorem readsUnderLock_of_bounded {p : List Action}
    (h : ∀ n, n ≤ p.length → inRead p n = true → holdsL p n = true) :
    ReadsUnderLock p := by
  intro n hr
  by_cases hn : n ≤ p.length
  · exact h n hn hr
  · have hlen : p.length ≤ n := le_of_not_le hn
    rw [inRead, flagAfter_stable _ _ _ _ hlen] at hr
    rw [holdsL, flagAfter_stable _ _ _ _ hlen]
    exact h p.length le_rfl hr

/-- The empty program is well-bracketed. -/
theorem goodBlock_nil : GoodBlock [] :=
  ⟨fun n hr => by cases n <;> simp [inRead, flagAfter] at hr, rfl, rfl⟩

/-- Concatenation preserves well-bracketing. -/
theorem goodBlock_append {p q : List Action}
    (hp : GoodBlock p) (hq : GoodBlock q) : GoodBlock (p ++ q) := by
  obtain ⟨hpw, hpl, hpr⟩ := hp
  obtain ⟨hqw, hql, hqr⟩ := hq
  have hread2 : ∀ n, inRead (p ++ q) (p.length + n) = inRead q n := by
    intro n
    rw [inRead, flagAfter_append_add]
    rw [inRead] at hpr
    rw [hpr]
    rfl
  have hhold2 : ∀ n, holdsL (p ++ q) (p.length + n) = holdsL q n := by
    intro n
    rw [holdsL, flagAfter_append_add]
    rw [holdsL] at hpl
    rw [hpl]
    rfl
  refine ⟨fun n hr => ?_, ?_, ?_⟩
  · by_cases hn : n ≤ p.length
    · rw [inRead, flagAfter_append_le readUpd p q false n hn] at hr
      rw [holdsL, flagAfter_append_le lockUpd p q false n hn]
      exact hpw n hr
    · obtain ⟨m, rfl⟩ : ∃ m, n = p.length + m := ⟨n - p.length, by omega⟩
      rw [hread2] at hr
      rw [hhold2]
      exact hqw m hr
  · rw [List.length_append, hhold2]
    exact hql
  · rw [List.length_append, hread2]
    exact hqr

/-- C6: For any buffer, `ratbag_hidraw_raw_request` and
`ratbag_hidraw_output_report` reject `len == 0` and `len > 4096` by
returning `-EINVAL`, without performing any device I/O (the device state,
trace included, is returned unchanged). -/
theorem raw_request_output_report_reject_bad_len
    (env : ReqEnv) (wenv : WriteEnv) (dev : Device) (reportnum : Nat)
    (buf : Option (List Nat)) (len : Nat) (rtype reqtype : Nat)
    (h : len = 0 ∨ 4096 < len) :
    ratbag_hidraw_raw_request env dev reportnum buf len rtype reqtype =
      (-EINVAL, buf, dev) ∧
    ratbag_hidraw_output_report wenv dev buf len = (-EINVAL, dev) := by
  have hc : len < 1 ∨ HID_MAX_BUFFER_SIZE < len ∨ buf = none ∨ dev.fd < 0 := by
    rcases h with h | h
    · exact Or.inl (by omega)
    · exact Or.inr (Or.inl (by simpa [HID_MAX_BUFFER_SIZE] using h))
  constructor
  · simp only [ratbag_hidraw_raw_request, if_pos hc]
  · simp only [ratbag_hidraw_output_report, if_pos hc]

/-- C6 witness: at `len = 0` with a concrete device and buffer. -/
theorem raw_request_output_report_reject_bad_len_witness :
    ratbag_hidraw_raw_request
        { getFeature := fun _ _ => Except.ok [], setFeature := fun _ _ => Except.ok 0 }
        { fd := 3, useThread := false, lockHeld := false, pipe := [], trace := [] }
        1 (some [7]) 0 HID_FEATURE_REPORT HID_REQ_GET_REPORT =
      (-EINVAL, some [7],
        { fd := 3, useThread := false, lockHeld := false, pipe := [], trace := [] }) ∧
    ratbag_hidraw_output_report
        { devWrite := fun _ _ => Except.ok 0 }
        { fd := 3, useThread := false, lockHeld := false, pipe := [], trace := [] }
        (some [7]) 0 =
      (-EINVAL,
        { fd := 3, useThread := false, lockHeld := false, pipe := [], trace := [] }) :=
  raw_request_output_report_reject_bad_len _ _ _ 1 (some [7]) 0
    HID_FEATURE_REPORT HID_REQ_GET_REPORT (Or.inl rfl)

/-- C7: `ratbag_hidraw_raw_request` with valid length/buffer/fd but a
report kind other than `HID_FEATURE_REPORT` returns `-ENOTSUP` with the
buffer and the device state (lock view, pipe, trace) completely
unchanged: the soft lock is not taken and the device is not touched. -/
theorem raw_request_non_feature_unsupported
    (env : ReqEnv) (dev : Device) (reportnum : Nat) (b : List Nat)
    (len : Nat) (rtype reqtype : Nat)
    (h1 : 1 ≤ len) (h2 : len ≤ 4096) (hfd : 0 ≤ dev.fd)
    (hr : rtype ≠ HID_FEATURE_REPORT) :
    ratbag_hidraw_raw_request env dev reportnum (some b) len rtype reqtype =
      (-ENOTSUP, some b, dev) := by
  have hc : ¬(len < 1 ∨ HID_MAX_BUFFER_SIZE < len ∨ (some b : Option (List Nat)) = none ∨
      dev.fd < 0) := by
    push_neg
    exact ⟨by omega, by simp [HID_MAX_BUFFER_SIZE]; omega, by simp, by omega⟩
  simp only [ratbag_hidraw_raw_request, if_neg hc, if_pos hr]

/-- C7 witness: `rtype = HID_OUTPUT_REPORT` at a concrete input. -/
theorem raw_request_non_feature_unsupported_witness :
    ratbag_hidraw_raw_request
        { getFeature := fun _ _ => Except.ok [], setFeature := fun _ _ => Except.ok 0 }
        { fd := 3, useThread := true, lockHeld := false, pipe := [], trace := [] }
        1 (some [7, 8]) 2 HID_OUTPUT_REPORT HID_REQ_GET_REPORT =
      (-ENOTSUP, some [7, 8],
        { fd := 3, useThread := true, lockHeld := false, pipe := [], trace := [] }) :=
  raw_request_non_feature_unsupported _ _ 1 [7, 8] 2 HID_OUTPUT_REPORT
    HID_REQ_GET_REPORT (by decide) (by decide) (by decide) (by decide)

/-- C8: `ratbag_hidraw_output_report` with valid arguments returns the
negated platform errno when the write fails outright, `-EIO_err` when the
write is short (fewer than `len` bytes transferred), and 0 when exactly
`len` bytes are written. -/
theorem output_report_write_outcomes
    (env : WriteEnv) (dev : Device) (b : List Nat) (len : Nat)
    (h1 : 1 ≤ len) (h2 : len ≤ 4096) (hfd : 0 ≤ dev.fd) :
    (∀ e, env.devWrite b len = Except.error e →
      (ratbag_hidraw_output_report env dev (some b) len).1 = -(e : Int)) ∧
    (∀ n, env.devWrite b len = Except.ok n → n < len →
      (ratbag_hidraw_output_report env dev (some b) len).1 = -EIO_err) ∧
    (env.devWrite b len = Except.ok len →
      (ratbag_hidraw_output_report env dev (some b) len).1 = 0) := by
  have hc : ¬(len < 1 ∨ HID_MAX_BUFFER_SIZE < len ∨ (some b : Option (List Nat)) = none ∨
      dev.fd < 0) := by
    push_neg
    exact ⟨by omega, by simp [HID_MAX_BUFFER_SIZE]; omega, by simp, by omega⟩
  refine ⟨fun e he => ?_, fun n hn hlt => ?_, fun he => ?_⟩
  · simp only [ratbag_hidraw_output_report, if_neg hc, he]
  · simp only [ratbag_hidraw_output_report, if_neg hc, hn]
    simp [Nat.ne_of_lt hlt]
  · simp only [ratbag_hidraw_output_report, if_neg hc, he]
    simp

/-- C8 witness: a failing write (errno 5), a short write (1 of 2 bytes)
and an exact write, each at a concrete device. -/
theorem output_report_write_outcomes_witness :
    (ratbag_hidraw_output_report { devWrite := fun _ _ => Except.error 19 }
      { fd := 3, useThread := false, lockHeld := false, pipe := [], trace := [] }
      (some [7, 8]) 2).1 = -(19 : Int) ∧
    (ratbag_hidraw_output_report { devWrite := fun _ _ => Except.ok 1 }
      { fd := 3, useThread := false, lockHeld := false, pipe := [], trace := [] }
      (some [7, 8]) 2).1 = -EIO_err ∧
    (ratbag_hidraw_output_report { devWrite := fun _ _ => Except.ok 2 }
      { fd := 3, useThread := false, lockHeld := false, pipe := [], trace := [] }
      (some [7, 8]) 2).1 = 0 :=
  ⟨(output_report_write_outcomes _ _ [7, 8] 2 (by decide) (by decide)
      (by decide)).1 19 rfl,
   (output_report_write_outcomes _ _ [7, 8] 2 (by decide) (by decide)
      (by decide)).2.1 1 rfl (by decide),
   (output_report_write_outcomes _ _ [7, 8] 2 (by decide) (by decide)
      (by decide)).2.2 rfl⟩

/-- C9: when no listener thread is active (`use_thread == 0`),
`ratbag_hidraw_lock_events` and `ratbag_hidraw_unlock_events` return 0
immediately and leave the whole device state (mutex view, pipe, trace)
unchanged. -/
theorem lock_unlock_events_noop_without_thread
    (dev : Device) (h : dev.useThread = false) :
    ratbag_hidraw_lock_events dev = (0, dev) ∧
    ratbag_hidraw_unlock_events dev = (0, dev) := by
  constructor
  · simp [ratbag_hidraw_lock_events, h]
  · simp [ratbag_hidraw_unlock_events, h]

/-- C9 witness: a concrete single-threaded device. -/
theorem lock_unlock_events_noop_without_thread_witness :
    ratbag_hidraw_lock_events
        { fd := 3, useThread := false, lockHeld := false, pipe := [], trace := [] } =
      (0, { fd := 3, useThread := false, lockHeld := false, pipe := [], trace := [] }) ∧
    ratbag_hidraw_unlock_events
        { fd := 3, useThread := false, lockHeld := false, pipe := [], trace := [] } =
      (0, { fd := 3, useThread := false, lockHeld := false, pipe := [], trace := [] }) :=
  lock_unlock_events_noop_without_thread _ rfl

/-- C2: for every input to `ratbag_hidraw_raw_request` that passes the
argument checks, and for every kernel behaviour of the two ioctls, the
soft lock is released before the function returns: on every exit path
(get success, get failure, set success, set failure, unknown request
type) the returned device state does not hold the read mutex. -/
theorem raw_request_releases_lock
    (env : ReqEnv) (dev : Device) (reportnum : Nat) (b : List Nat)
    (len : Nat) (rtype reqtype : Nat)
    (h1 : 1 ≤ len) (h2 : len ≤ 4096) (hfd : 0 ≤ dev.fd)
    (hheld : dev.lockHeld = false) :
    ((ratbag_hidraw_raw_request env dev reportnum (some b) len rtype
        reqtype).2.2).lockHeld = false := by
  have hc : ¬(len < 1 ∨ HID_MAX_BUFFER_SIZE < len ∨ (some b : Option (List Nat)) = none ∨
      dev.fd < 0) := by
    push_neg
    exact ⟨by omega, by simp [HID_MAX_BUFFER_SIZE]; omega, by simp, by omega⟩
  simp only [ratbag_hidraw_raw_request, if_neg hc]
  cases hu : dev.useThread <;>
    simp only [ratbag_hidraw_lock_events, ratbag_hidraw_unlock_events, hu,
      Bool.not_false, Bool.not_true, if_true, if_false, Bool.false_eq_true,
      Bool.true_eq_false] <;>
    split <;>
    (try split) <;>
    (try split) <;>
    (try split) <;>
    simp_all

/-- C2 witness: a get request whose ioctl fails with errno 5; the lock is
still free on return. -/
theorem raw_request_releases_lock_witness :
    ((ratbag_hidraw_raw_request
        { getFeature := fun _ _ => Except.error 5,
          setFeature := fun _ _ => Except.ok 0 }
        { fd := 3, useThread := true, lockHeld := false, pipe := [], trace := [] }
        1 (some [7, 8]) 2 HID_FEATURE_REPORT
        HID_REQ_GET_REPORT).2.2).lockHeld = false :=
  raw_request_releases_lock _ _ 1 [7, 8] 2 HID_FEATURE_REPORT
    HID_REQ_GET_REPORT (by decide) (by decide) (by decide) rfl

/-- C5: for valid `len` in [1,4096], a get-direction
`ratbag_hidraw_raw_request` whose ioctl succeeds with `rc` bytes copies
exactly those `rc` bytes to the caller's buffer, `rc` is bounded by `len`
(kernel contract `ReqEnv.GetOK`), and no position of the caller's buffer
at index ≥ `len` is modified. -/
theorem raw_request_get_no_overflow
    (env : ReqEnv) (dev : Device) (reportnum : Nat) (b : List Nat)
    (len : Nat) (bytes : List Nat)
    (h1 : 1 ≤ len) (h2 : len ≤ 4096) (hfd : 0 ≤ dev.fd)
    (henv : env.GetOK)
    (hok : env.getFeature len (reportnum :: List.replicate (len - 1) 0) =
      Except.ok bytes) :
    (ratbag_hidraw_raw_request env dev reportnum (some b) len
        HID_FEATURE_REPORT HID_REQ_GET_REPORT).1 = (bytes.length : Int) ∧
    (ratbag_hidraw_raw_request env dev reportnum (some b) len
        HID_FEATURE_REPORT HID_REQ_GET_REPORT).2.1 =
      some (bytes ++ b.drop bytes.length) ∧
    bytes.length ≤ len ∧
    ∀ i, len ≤ i → (bytes ++ b.drop bytes.length)[i]? = b[i]? := by
  have hc : ¬(len < 1 ∨ HID_MAX_BUFFER_SIZE < len ∨ (some b : Option (List Nat)) = none ∨
      dev.fd < 0) := by
    push_neg
    exact ⟨by omega, by simp [HID_MAX_BUFFER_SIZE]; omega, by simp, by omega⟩
  have hblen : bytes.length ≤ len := henv len _ bytes hok
  refine ⟨?_, ?_, hblen, ?_⟩
  · simp only [ratbag_hidraw_raw_request, if_neg hc, hok]
    simp [HID_FEATURE_REPORT, HID_REQ_GET_REPORT]
  · simp only [ratbag_hidraw_raw_request, if_neg hc, hok]
    simp [HID_FEATURE_REPORT, HID_REQ_GET_REPORT]
  · intro i hi
    have hbi : bytes.length ≤ i := le_trans hblen hi
    rw [List.getElem?_append_right hbi, List.getElem?_drop]
    congr 1
    omega

/-- C5 witness: `len = 2`, ioctl reports one byte back; the second byte
of the caller's buffer survives and nothing past index 2 changes. -/
theorem raw_request_get_no_overflow_witness :
    (ratbag_hidraw_raw_request
        { getFeature := fun l _ => Except.ok ([9].take l),
          setFeature := fun _ _ => Except.ok 0 }
        { fd := 3, useThread := false, lockHeld := false, pipe := [], trace := [] }
        1 (some [7, 8, 55]) 2 HID_FEATURE_REPORT HID_REQ_GET_REPORT).1 =
      ((1 : Nat) : Int) ∧
    (ratbag_hidraw_raw_request
        { getFeature := fun l _ => Except.ok ([9].take l),
          setFeature := fun _ _ => Except.ok 0 }
        { fd := 3, useThread := false, lockHeld := false, pipe := [], trace := [] }
        1 (some [7, 8, 55]) 2 HID_FEATURE_REPORT HID_REQ_GET_REPORT).2.1 =
      some ([9] ++ [7, 8, 55].drop 1) ∧
    ([9] : List Nat).length ≤ 2 ∧
    ∀ i, 2 ≤ i → (([9] : List Nat) ++ [7, 8, 55].drop 1)[i]? = ([7, 8, 55] : List Nat)[i]? := by
  have hlen : ([9] : List Nat).length = 1 := rfl
  exact raw_request_get_no_overflow
    { getFeature := fun l _ => Except.ok ([9].take l),
      setFeature := fun _ _ => Except.ok 0 }
    { fd := 3, useThread := false, lockHeld := false, pipe := [], trace := [] }
    1 [7, 8, 55] 2 [9] (by decide) (by decide) (by decide)
    (fun len tmp bytes h => by
      simp only [Except.ok.injEq] at h
      subst h
      exact List.length_take_le len [9])
    rfl

/-- C3: when `ratbag_hidraw_read_input_report` is called with valid
arguments, the poll reports the device ready (not the pipe), and the
device read returns `n` bytes, the function returns `n` (the full count),
copies exactly `min n len` bytes into the caller's buffer (silently
truncating when `n > len`), and, when `propagate` is set and the
`raw_event` callback is registered, invokes the callback exactly once
with the full `n`-byte device buffer. -/
theorem read_input_report_truncates_copy_reports_full_length
    (dev : Device) (b : List Nat) (len : Nat) (propagate hasRawEvent : Bool)
    (devRevents pipeRevents : Nat) (bytes : List Nat)
    (h1 : 1 ≤ len) (h2 : len ≤ 4096) (hfd : 0 ≤ dev.fd)
    (hpipe : pipeRevents ≠ POLLIN) :
    (ratbag_hidraw_read_input_report
        { poll := PollOutcome.pollReady devRevents pipeRevents,
          devRead := Except.ok bytes }
        dev (some b) len propagate hasRawEvent).1 = (bytes.length : Int) ∧
    (ratbag_hidraw_read_input_report
        { poll := PollOutcome.pollReady devRevents pipeRevents,
          devRead := Except.ok bytes }
        dev (some b) len propagate hasRawEvent).2.1 =
      some (bytes.take (min bytes.length len) ++ b.drop (min bytes.length len)) ∧
    (propagate = true → hasRawEvent = true →
      (ratbag_hidraw_read_input_report
        { poll := PollOutcome.pollReady devRevents pipeRevents,
          devRead := Except.ok bytes }
        dev (some b) len propagate hasRawEvent).2.2.2 = [bytes]) := by
  have hc : ¬(len < 1 ∨ (some b : Option (List Nat)) = none ∨ dev.fd < 0 ∨
      HIDRAW_MAX_READ < len) := by
    push_neg
    exact ⟨by omega, by simp, by omega, by simp [HIDRAW_MAX_READ]; omega⟩
  have key : ratbag_hidraw_read_input_report
      { poll := PollOutcome.pollReady devRevents pipeRevents,
        devRead := Except.ok bytes }
      dev (some b) len propagate hasRawEvent =
      ((bytes.length : Int),
       some (bytes.take (min bytes.length len) ++ b.drop (min bytes.length len)),
       { dev with trace := dev.trace ++ [IOEvent.devRead] },
       if propagate = true ∧ hasRawEvent = true then [bytes] else []) := by
    simp only [ratbag_hidraw_read_input_report]
    rw [if_neg hc]
    simp [hpipe]
  refine ⟨by rw [key], by rw [key], fun hp hr => by rw [key]; simp [hp, hr]⟩

/-- C3 witness: a 3-byte device report read into a 2-byte caller buffer
with propagation on: the copy is truncated to 2 bytes, the return value
is 3, and the callback sees all 3 bytes. -/
theorem read_input_report_truncates_copy_reports_full_length_witness :
    (ratbag_hidraw_read_input_report
        { poll := PollOutcome.pollReady POLLIN 0,
          devRead := Except.ok [1, 2, 3] }
        { fd := 3, useThread := true, lockHeld := true, pipe := [], trace := [] }
        (some [7, 8]) 2 true true).1 = (([1, 2, 3] : List Nat).length : Int) ∧
    (ratbag_hidraw_read_input_report
        { poll := PollOutcome.pollReady POLLIN 0,
          devRead := Except.ok [1, 2, 3] }
        { fd := 3, useThread := true, lockHeld := true, pipe := [], trace := [] }
        (some [7, 8]) 2 true true).2.1 =
      some (([1, 2, 3] : List Nat).take (min ([1, 2, 3] : List Nat).length 2) ++
        ([7, 8] : List Nat).drop (min ([1, 2, 3] : List Nat).length 2)) ∧
    (true = true → true = true →
      (ratbag_hidraw_read_input_report
        { poll := PollOutcome.pollReady POLLIN 0,
          devRead := Except.ok [1, 2, 3] }
        { fd := 3, useThread := true, lockHeld := true, pipe := [], trace := [] }
        (some [7, 8]) 2 true true).2.2.2 = [[1, 2, 3]]) :=
  read_input_report_truncates_copy_reports_full_length
    { fd := 3, useThread := true, lockHeld := true, pipe := [], trace := [] }
    [7, 8] 2 true true POLLIN 0 [1, 2, 3]
    (by decide) (by decide) (by decide) (by decide)

/-- C4: when `ratbag_hidraw_read_input_report` is called with valid
arguments and the poll reports the interrupt pipe ready, the function
drains the pipe (at most `HIDRAW_MAX_READ` bytes were pending, so the
pipe is empty afterwards), returns `-EINTR`, leaves the caller's buffer
untouched, and performs no read on the device descriptor (the only
I/O event recorded is the pipe read). -/
theorem read_input_report_pipe_ready_interrupted
    (dev : Device) (b : List Nat) (len : Nat) (propagate hasRawEvent : Bool)
    (devRevents : Nat) (devRead : Except Nat (List Nat))
    (h1 : 1 ≤ len) (h2 : len ≤ 4096) (hfd : 0 ≤ dev.fd)
    (hpending : dev.pipe.length ≤ HIDRAW_MAX_READ) :
    (ratbag_hidraw_read_input_report
        { poll := PollOutcome.pollReady devRevents POLLIN, devRead := devRead }
        dev (some b) len propagate hasRawEvent).1 = -EINTR ∧
    (ratbag_hidraw_read_input_report
        { poll := PollOutcome.pollReady devRevents POLLIN, devRead := devRead }
        dev (some b) len propagate hasRawEvent).2.1 = some b ∧
    (ratbag_hidraw_read_input_report
        { poll := PollOutcome.pollReady devRevents POLLIN, devRead := devRead }
        dev (some b) len propagate hasRawEvent).2.2.1.pipe = [] ∧
    (ratbag_hidraw_read_input_report
        { poll := PollOutcome.pollReady devRevents POLLIN, devRead := devRead }
        dev (some b) len propagate hasRawEvent).2.2.1.trace =
      dev.trace ++ [IOEvent.pipeRead] := by
  have hc : ¬(len < 1 ∨ (some b : Option (List Nat)) = none ∨ dev.fd < 0 ∨
      HIDRAW_MAX_READ < len) := by
    push_neg
    exact ⟨by omega, by simp, by omega, by simp [HIDRAW_MAX_READ]; omega⟩
  have hdrop : dev.pipe.drop HIDRAW_MAX_READ = [] :=
    List.drop_eq_nil_of_le hpending
  have key : ratbag_hidraw_read_input_report
      { poll := PollOutcome.pollReady devRevents POLLIN, devRead := devRead }
      dev (some b) len propagate hasRawEvent =
      (-EINTR, some b,
       { dev with pipe := [], trace := dev.trace ++ [IOEvent.pipeRead] },
       []) := by
    simp only [ratbag_hidraw_read_input_report]
    rw [if_neg hc]
    simp [hdrop]
  exact ⟨by rw [key], by rw [key], by rw [key], by rw [key]⟩

/-- C4 witness: one byte pending in the pipe, pipe branch taken. -/
theorem read_input_report_pipe_ready_interrupted_witness :
    (ratbag_hidraw_read_input_report
        { poll := PollOutcome.pollReady 0 POLLIN, devRead := Except.ok [1] }
        { fd := 3, useThread := true, lockHeld := true, pipe := [10], trace := [] }
        (some [7]) 1 true true).1 = -EINTR ∧
    (ratbag_hidraw_read_input_report
        { poll := PollOutcome.pollReady 0 POLLIN, devRead := Except.ok [1] }
        { fd := 3, useThread := true, lockHeld := true, pipe := [10], trace := [] }
        (some [7]) 1 true true).2.1 = some [7] ∧
    (ratbag_hidraw_read_input_report
        { poll := PollOutcome.pollReady 0 POLLIN, devRead := Except.ok [1] }
        { fd := 3, useThread := true, lockHeld := true, pipe := [10], trace := [] }
        (some [7]) 1 true true).2.2.1.pipe = [] ∧
    (ratbag_hidraw_read_input_report
        { poll := PollOutcome.pollReady 0 POLLIN, devRead := Except.ok [1] }
        { fd := 3, useThread := true, lockHeld := true, pipe := [10], trace := [] }
        (some [7]) 1 true true).2.2.1.trace =
      ([] : List IOEvent) ++ [IOEvent.pipeRead] :=
  read_input_report_pipe_ready_interrupted
    { fd := 3, useThread := true, lockHeld := true, pipe := [10], trace := [] }
    [7] 1 true true 0 (Except.ok [1]) (by decide) (by decide) (by decide)
    (by decide)

/-- C10: when the poll reports both the device descriptor and the
interrupt pipe ready (`revents = POLLIN` on both) in the same
`ratbag_hidraw_read_input_report` call, the pipe branch wins: the call
returns `-EINTR`, the caller's buffer is untouched, no callback fires,
and no device read is performed (only a pipe read is traced), whatever
report the device had pending. -/
theorem read_input_report_pipe_priority_over_device
    (dev : Device) (b : List Nat) (len : Nat) (propagate hasRawEvent : Bool)
    (devRead : Except Nat (List Nat))
    (h1 : 1 ≤ len) (h2 : len ≤ 4096) (hfd : 0 ≤ dev.fd) :
    (ratbag_hidraw_read_input_report
        { poll := PollOutcome.pollReady POLLIN POLLIN, devRead := devRead }
        dev (some b) len propagate hasRawEvent).1 = -EINTR ∧
    (ratbag_hidraw_read_input_report
        { poll := PollOutcome.pollReady POLLIN POLLIN, devRead := devRead }
        dev (some b) len propagate hasRawEvent).2.1 = some b ∧
    (ratbag_hidraw_read_input_report
        { poll := PollOutcome.pollReady POLLIN POLLIN, devRead := devRead }
        dev (some b) len propagate hasRawEvent).2.2.2 = [] ∧
    (ratbag_hidraw_read_input_report
        { poll := PollOutcome.pollReady POLLIN POLLIN, devRead := devRead }
        dev (some b) len propagate hasRawEvent).2.2.1.trace =
      dev.trace ++ [IOEvent.pipeRead] := by
  have hc : ¬(len < 1 ∨ (some b : Option (List Nat)) = none ∨ dev.fd < 0 ∨
      HIDRAW_MAX_READ < len) := by
    push_neg
    exact ⟨by omega, by simp, by omega, by simp [HIDRAW_MAX_READ]; omega⟩
  have key : ratbag_hidraw_read_input_report
      { poll := PollOutcome.pollReady POLLIN POLLIN, devRead := devRead }
      dev (some b) len propagate hasRawEvent =
      (-EINTR, some b,
       { dev with pipe := dev.pipe.drop HIDRAW_MAX_READ,
                  trace := dev.trace ++ [IOEvent.pipeRead] },
       []) := by
    simp only [ratbag_hidraw_read_input_report]
    rw [if_neg hc]
    simp
  exact ⟨by rw [key], by rw [key], by rw [key], by rw [key]⟩

/-- C10 witness: both descriptors ready, a 2-byte report pending on the
device; the pipe branch is still taken. -/
theorem read_input_report_pipe_priority_over_device_witness :
    (ratbag_hidraw_read_input_report
        { poll := PollOutcome.pollReady POLLIN POLLIN, devRead := Except.ok [4, 5] }
        { fd := 3, useThread := true, lockHeld := true, pipe := [10], trace := [] }
        (some [7]) 1 true true).1 = -EINTR ∧
    (ratbag_hidraw_read_input_report
        { poll := PollOutcome.pollReady POLLIN POLLIN, devRead := Except.ok [4, 5] }
        { fd := 3, useThread := true, lockHeld := true, pipe := [10], trace := [] }
        (some [7]) 1 true true).2.1 = some [7] ∧
    (ratbag_hidraw_read_input_report
        { poll := PollOutcome.pollReady POLLIN POLLIN, devRead := Except.ok [4, 5] }
        { fd := 3, useThread := true, lockHeld := true, pipe := [10], trace := [] }
        (some [7]) 1 true true).2.2.2 = [] ∧
    (ratbag_hidraw_read_input_report
        { poll := PollOutcome.pollReady POLLIN POLLIN, devRead := Except.ok [4, 5] }
        { fd := 3, useThread := true, lockHeld := true, pipe := [10], trace := [] }
        (some [7]) 1 true true).2.2.1.trace =
      ([] : List IOEvent) ++ [IOEvent.pipeRead] :=
  read_input_report_pipe_priority_over_device
    { fd := 3, useThread := true, lockHeld := true, pipe := [10], trace := [] }
    [7] 1 true true (Except.ok [4, 5]) (by decide) (by decide) (by decide)

/-! ### The synchronisation invariant -/

/-- A step whose action leaves the lock flag unchanged keeps each
thread's lock view unchanged. -/
theorem holdsL_update_pc_other {progs : Nat → List Action} {pcf : Nat → Nat}
    {t : Nat} {a : Action} (h : (progs t).get? (pcf t) = some a)
    (ha : ∀ b, lockUpd a b = b) (u : Nat) :
    holdsL (progs u) (Function.update pcf t (pcf t + 1) u) =
      holdsL (progs u) (pcf u) := by
  by_cases hu : u = t
  · subst hu
    rw [Function.update_same, holdsL, holdsL,
      flagAfter_get lockUpd (progs u) (pcf u) false a h, ha]
  · rw [Function.update_noteq hu]

/-- Each interleaving step preserves the synchronisation invariant. -/
theorem lockSync_step {progs : Nat → List Action} {s s' : SysState}
    (hstep : Step progs s s') (hinv : LockSync progs s) :
    LockSync progs s' := by
  cases hstep with
  | lockL t s h hfree =>
    intro u
    by_cases hu : u = t
    · subst hu
      simp only [Function.update_same]
      rw [holdsL, flagAfter_get lockUpd (progs u) (s.pc u) false _ h]
      simp [lockUpd]
    · simp only [Function.update_noteq hu]
      have := (hinv u).not
      constructor
      · intro hh
        exact absurd (((hinv u).1 hh).symm.trans hfree) (by simp)
      · intro hh
        exact absurd (Option.some_injective _ hh) (fun e => hu e.symm)
  | unlockL t s h hown =>
    intro u
    by_cases hu : u = t
    · subst hu
      simp only [Function.update_same]
      rw [holdsL, flagAfter_get lockUpd (progs u) (s.pc u) false _ h]
      simp [lockUpd]
    · simp only [Function.update_noteq hu]
      constructor
      · intro hh
        have := ((hinv u).1 hh).symm.trans hown
        exact absurd (Option.some_injective _ this) hu
      · intro hh
        exact absurd hh (by simp)
  | lockG t s h hfree =>
    intro u
    rw [holdsL_update_pc_other h (fun b => rfl) u]
    exact hinv u
  | unlockG t s h hown =>
    intro u
    rw [holdsL_update_pc_other h (fun b => rfl) u]
    exact hinv u
  | pipeWrite t s h =>
    intro u
    rw [holdsL_update_pc_other h (fun b => rfl) u]
    exact hinv u
  | pipeDrain t s h =>
    intro u
    rw [holdsL_update_pc_other h (fun b => rfl) u]
    exact hinv u
  | readStart t s h =>
    intro u
    rw [holdsL_update_pc_other h (fun b => rfl) u]
    exact hinv u
  | readEnd t s h =>
    intro u
    rw [holdsL_update_pc_other h (fun b => rfl) u]
    exact hinv u

/-- Every reachable state satisfies the synchronisation invariant. -/
theorem lockSync_reachable {progs : Nat → List Action} {s : SysState}
    (h : Reachable progs s) : LockSync progs s := by
  induction h with
  | init =>
    intro t
    simp [initState, holdsL, flagAfter]
  | step _ hs ih =>
    exact lockSync_step hs ih

/-- Mutual exclusion for any family of well-bracketed programs: in every
reachable state, at most one thread is inside a device read. -/
theorem reads_mutual_exclusion {progs : Nat → List Action} {s : SysState}
    (hreach : Reachable progs s) {t1 t2 : Nat}
    (w1 : ReadsUnderLock (progs t1)) (w2 : ReadsUnderLock (progs t2))
    (r1 : inRead (progs t1) (s.pc t1) = true)
    (r2 : inRead (progs t2) (s.pc t2) = true) : t1 = t2 := by
  have hs := lockSync_reachable hreach
  have h1 : s.lockOwner = some t1 := (hs t1).1 (w1 _ r1)
  have h2 : s.lockOwner = some t2 := (hs t2).1 (w2 _ r2)
  have := h1.symm.trans h2
  exact Option.some_injective _ this

/-! ### The listener and foreground programs are well-bracketed -/

/-- One foreground lock/read/unlock session is well-bracketed. -/
theorem goodBlock_stealerSession : GoodBlock stealerSession := by
  refine ⟨readsUnderLock_of_bounded ?_, by decide, by decide⟩
  decide

/-- A foreground caller performing any number of sessions is
well-bracketed. -/
theorem goodBlock_stealerProg (m : Nat) : GoodBlock (stealerProg m) := by
  induction m with
  | zero => exact goodBlock_nil
  | succ m ih => exact goodBlock_append goodBlock_stealerSession ih

/-- Each listener loop iteration is well-bracketed, whatever the poll
outcome. -/
theorem goodBlock_listenerIter (io : ListenBranch) :
    GoodBlock (listenerIter io) := by
  cases io <;>
    exact ⟨readsUnderLock_of_bounded (by decide), by decide, by decide⟩

/-- The listener thread running any number of iterations is
well-bracketed. -/
theorem goodBlock_listenerProg (f : Nat → ListenBranch) (k : Nat) :
    GoodBlock (listenerProg f k) := by
  induction k with
  | zero => exact goodBlock_nil
  | succ k ih => exact goodBlock_append (goodBlock_listenerIter (f k)) ih

/-- Every thread of the hidraw system is well-bracketed. -/
theorem goodBlock_hidrawProgs (f : Nat → ListenBranch) (k : Nat)
    (sessions : Nat → Nat) (t : Nat) :
    GoodBlock (hidrawProgs f k sessions t) := by
  cases t with
  | zero => exact goodBlock_listenerProg f k
  | succ t => exact goodBlock_stealerProg (sessions t)

/-- C1: while the listener thread is active, device reads are mutually
exclusive.  For every number of listener iterations, every poll outcome
of each iteration, any number of foreground callers each performing any
number of `lock_events`/read/`unlock_events` sessions, and every
interleaving (every reachable state of the system), at most one thread is
inside a device read/ioctl: two threads observed mid-read are the same
thread. -/
theorem hidraw_device_reads_mutually_exclusive
    (f : Nat → ListenBranch) (k : Nat) (sessions : Nat → Nat) (s : SysState)
    (hreach : Reachable (hidrawProgs f k sessions) s) (t1 t2 : Nat)
    (r1 : inRead (hidrawProgs f k sessions t1) (s.pc t1) = true)
    (r2 : inRead (hidrawProgs f k sessions t2) (s.pc t2) = true) :
    t1 = t2 :=
  reads_mutual_exclusion hreach
    (goodBlock_hidrawProgs f k sessions t1).1
    (goodBlock_hidrawProgs f k sessions t2).1 r1 r2

/-- C1 witness: a concrete reachable state (the listener has taken the
lock and entered its device read) in a system with one listener iteration
and one foreground caller; the two mid-read threads coincide. -/
theorem hidraw_device_reads_mutually_exclusive_witness : (0 : Nat) = 0 := by
  refine hidraw_device_reads_mutually_exclusive
    (fun _ => ListenBranch.devReadBranch) 1 (fun _ => 1) _
    (Reachable.step (Reachable.step Reachable.init
      (Step.lockL 0 initState (by decide) rfl))
      (Step.readStart 0 _ ?_)) 0 0 ?_ ?_
  · show (hidrawProgs (fun _ => ListenBranch.devReadBranch) 1 (fun _ => 1) 0).get?
      (Function.update initState.pc 0 (initState.pc 0 + 1) 0) =
        some Action.readStart
    simp [Function.update, initState]
    decide
  · show inRead (hidrawProgs (fun _ => ListenBranch.devReadBranch) 1 (fun _ => 1) 0)
      (Function.update (Function.update initState.pc 0 (initState.pc 0 + 1)) 0
        (Function.update initState.pc 0 (initState.pc 0 + 1) 0 + 1) 0) = true
    simp [Function.update, initState]
    decide
  · show inRead (hidrawProgs (fun _ => ListenBranch.devReadBranch) 1 (fun _ => 1) 0)
      (Function.update (Function.update initState.pc 0 (initState.pc 0 + 1)) 0
        (Function.update initState.pc 0 (initState.pc 0 + 1) 0 + 1) 0) = true
    simp [Function.update, initState]
    decide

end Hidraw
